import Mathlib

set_option maxRecDepth 10000

/-!
Verification development for `bulk_email_scheduler.py`, a rate-limited,
interruptible bulk e-mail send scheduler.  The Python source is shallowly
embedded: pure helpers become Lean functions, the ambient clock, the random
source, the SMTP transport, keyboard polling and the sent-log file become
explicit oracle inputs, and one iteration of the `main` while-loop becomes a
step function producing an event trace plus either a successor state or a
stop reason.
-/

/-! ## String primitives (Python `str` operations used by the scheduler) -/

/-- ASCII case folding of one character, modelling Python `str.lower()` on the
ASCII range (the scheduler applies it to e-mail addresses). -/
def lowerChar (c : Char) : Char :=
  if 65 ≤ c.toNat ∧ c.toNat ≤ 90 then Char.ofNat (c.toNat + 32) else c

/-- Python `s.lower()` (ASCII model). -/
def pyLower (s : String) : String := String.mk (s.data.map lowerChar)

/-- Character-list equality-front test: `chPre p s` is true iff `p` is a
prefix of `s`.  Models Python `s.startswith(p)`. -/
def chPre : List Char → List Char → Bool
  | [], _ => true
  | _ :: _, [] => false
  | a :: as, b :: bs => a == b && chPre as bs

/-- Python `s.startswith(pre)`. -/
def pyStartswith (s pre : String) : Bool := chPre pre.data s.data

/-- Python `str.split(sep)` for a one-character separator (never returns an
empty list; splitting the empty string yields `[[]]`, like Python). -/
def splitChar (sep : Char) : List Char → List (List Char)
  | [] => [[]]
  | c :: cs =>
    let r := splitChar sep cs
    if c == sep then [] :: r
    else
      match r with
      | h :: t => (c :: h) :: t
      | [] => [[c]]

/-- ASCII whitespace test for Python `str.strip()`. -/
def isSpace (c : Char) : Bool :=
  c == ' ' || c == '\t' || c == '\n' || c == '\r' || c == '\x0b' || c == '\x0c'

/-- Python `line.strip()`: drop whitespace from both ends. -/
def pyStrip (s : String) : String :=
  String.mk (((s.data.dropWhile isSpace).reverse.dropWhile isSpace).reverse)

/-- `domain_of` from the source: `addr.split("@")[-1].lower()`. -/
def domain_of (addr : String) : String :=
  pyLower (String.mk ((splitChar '@' addr.data).getLastD []))

/-! ## Python dict with `get(k, 0)` and item assignment (domain counters) -/

/-- `d.get(k, 0)` on the association-list model of a Python dict. -/
def dictGet (d : List (String × Nat)) (k : String) : Nat :=
  match d.find? (fun p => p.1 == k) with
  | some p => p.2
  | none => 0

/-- `d[k] = v` on the association-list model of a Python dict. -/
def dictSet : List (String × Nat) → String → Nat → List (String × Nat)
  | [], k, v => [(k, v)]
  | p :: ps, k, v => if p.1 == k then (k, v) :: ps else p :: dictSet ps k v

/-- `d[k] = d.get(k, 0) + 1`, the increment pattern used for domain counts. -/
def dictInc (d : List (String × Nat)) (k : String) : List (String × Nat) :=
  dictSet d k (dictGet d k + 1)

/-! ## Civil dates and datetimes (model of Python `datetime`) -/

/-- A proleptic-Gregorian calendar date, as in Python `datetime.date`. -/
structure Date where
  year : Nat
  month : Nat
  day : Nat
deriving DecidableEq

/-- A naive civil datetime, as in Python `datetime.datetime` (the UTC offset,
when one is attached, is carried separately). -/
structure DateTime where
  date : Date
  hour : Nat
  minute : Nat
  second : Nat
  micro : Nat
deriving DecidableEq

/-- Gregorian leap-year rule (Python `calendar.isleap`). -/
def isLeap (y : Nat) : Bool := (y % 4 == 0 && y % 100 != 0) || (y % 400 == 0)

/-- Days in a month of a given year. -/
def daysInMonth (y m : Nat) : Nat :=
  if m == 2 then (if isLeap y then 29 else 28)
  else if m == 4 || m == 6 || m == 9 || m == 11 then 30
  else 31

/-- The calendar day after `d` (Python `date + timedelta(days=1)`). -/
def nextDay (d : Date) : Date :=
  if d.day < daysInMonth d.year d.month then { d with day := d.day + 1 }
  else if d.month < 12 then { year := d.year, month := d.month + 1, day := 1 }
  else { year := d.year + 1, month := 1, day := 1 }

/-- The calendar day before `d`. -/
def prevDay (d : Date) : Date :=
  if 1 < d.day then { d with day := d.day - 1 }
  else if 1 < d.month then
    { year := d.year, month := d.month - 1, day := daysInMonth d.year (d.month - 1) }
  else { year := d.year - 1, month := 12, day := 31 }

/-- `date + timedelta(days=n)` for a signed day count. -/
def addDays (d : Date) : Int → Date
  | Int.ofNat n => Nat.iterate nextDay n d
  | Int.negSucc n => Nat.iterate prevDay (n + 1) d

/-- `datetime + timedelta(minutes=delta)` (seconds and microseconds are
unchanged because the delta is a whole number of minutes). -/
def addMinutes (t : DateTime) (delta : Int) : DateTime :=
  let total : Int := ((t.hour * 60 + t.minute : Nat) : Int) + delta
  let days : Int := Int.ediv total 1440
  let rem : Nat := (Int.emod total 1440).toNat
  { date := addDays t.date days, hour := rem / 60, minute := rem % 60,
    second := t.second, micro := t.micro }

/-- `datetime + timedelta(seconds=delta)`. -/
def addSeconds (t : DateTime) (delta : Int) : DateTime :=
  let total : Int := ((t.hour * 3600 + t.minute * 60 + t.second : Nat) : Int) + delta
  let days : Int := Int.ediv total 86400
  let rem : Nat := (Int.emod total 86400).toNat
  { date := addDays t.date days, hour := rem / 3600, minute := rem % 3600 / 60,
    second := rem % 60, micro := t.micro }

/-- Strict order on dates (year, then month, then day), as Python compares
`date` values. -/
def Date.lt (a b : Date) : Prop :=
  a.year < b.year ∨ (a.year = b.year ∧
    (a.month < b.month ∨ (a.month = b.month ∧ a.day < b.day)))

instance (a b : Date) : Decidable (Date.lt a b) := by
  unfold Date.lt; exact inferInstance

/-- Strict order on naive datetimes, as Python compares `datetime` values. -/
def DateTime.lt (a b : DateTime) : Prop :=
  Date.lt a.date b.date ∨ (a.date = b.date ∧
    (a.hour < b.hour ∨ (a.hour = b.hour ∧
      (a.minute < b.minute ∨ (a.minute = b.minute ∧
        (a.second < b.second ∨ (a.second = b.second ∧ a.micro < b.micro)))))))

instance (a b : DateTime) : Decidable (DateTime.lt a b) := by
  unfold DateTime.lt; exact inferInstance

/-! ## ISO-8601 formatting (model of `date.isoformat` / `datetime.isoformat`) -/

/-- The ASCII digit character for `n % 10`. -/
def digitChar (n : Nat) : Char := Char.ofNat (48 + n % 10)

/-- Two-digit zero-padded decimal (months, days, hours, ...). -/
def pad2 (n : Nat) : List Char := [digitChar (n / 10), digitChar n]

/-- Four-digit zero-padded decimal (years; Python years are at most 9999). -/
def pad4 (n : Nat) : List Char :=
  [digitChar (n / 1000), digitChar (n / 100), digitChar (n / 10), digitChar n]

/-- Six-digit zero-padded decimal (microseconds). -/
def pad6 (n : Nat) : List Char :=
  [digitChar (n / 100000), digitChar (n / 10000), digitChar (n / 1000),
   digitChar (n / 100), digitChar (n / 10), digitChar n]

/-- `date.isoformat()` as a character list: `YYYY-MM-DD`. -/
def isoDateChars (d : Date) : List Char :=
  pad4 d.year ++ ('-' :: pad2 d.month) ++ ('-' :: pad2 d.day)

/-- `date.isoformat()` as a string. -/
def isoDateStr (d : Date) : String := String.mk (isoDateChars d)

/-- `HH:MM:SS[.ffffff]`, as `datetime.isoformat()` prints the time part
(the fraction is omitted when the microsecond field is zero). -/
def isoTimeChars (t : DateTime) : List Char :=
  pad2 t.hour ++ (':' :: pad2 t.minute) ++ (':' :: pad2 t.second) ++
    (if t.micro == 0 then [] else '.' :: pad6 t.micro)

/-- `utc_now_iso` from the source: `datetime.now(timezone.utc).isoformat()`,
i.e. the civil UTC time `t` printed as `YYYY-MM-DDTHH:MM:SS[.ffffff]+00:00`. -/
def utc_now_iso (t : DateTime) : String :=
  String.mk (isoDateChars t.date ++ ('T' :: isoTimeChars t) ++
    ['+', '0', '0', ':', '0', '0'])

/-! ## Timestamp parsing (model of `datetime.datetime.fromisoformat`)

`count_this_hour` parses stored timestamp strings with
`datetime.fromisoformat` inside a `try`/`except`.  The model below accepts
the ISO forms that function accepts (date, optional one-character separator
plus time `HH[:MM[:SS[.fff|.ffffff]]]`, optional `±HH:MM` offset) and
validates field ranges; every other string is "malformed" and maps to
`none`, which models the `except` branch. -/

/-- Decimal-digit test. -/
def isDig (c : Char) : Bool := decide (48 ≤ c.toNat ∧ c.toNat ≤ 57)

/-- Numeric value of a digit character. -/
def digVal (c : Char) : Nat := c.toNat - 48

/-- Read exactly two digits. -/
def take2 : List Char → Option (Nat × List Char)
  | a :: b :: rest =>
    if isDig a && isDig b then some (digVal a * 10 + digVal b, rest) else none
  | _ => none

/-- Read exactly four digits. -/
def take4 : List Char → Option (Nat × List Char)
  | a :: b :: c :: d :: rest =>
    if isDig a && isDig b && isDig c && isDig d then
      some (digVal a * 1000 + digVal b * 100 + digVal c * 10 + digVal d, rest)
    else none
  | _ => none

/-- Require a literal character. -/
def expectCh (ch : Char) : List Char → Option (List Char)
  | c :: rest => if c == ch then some rest else none
  | [] => none

/-- Read `YYYY-MM-DD` and validate the field ranges as the `date`
constructor does. -/
def parseDatePart (cs : List Char) : Option (Date × List Char) := do
  let (y, cs) ← take4 cs
  let cs ← expectCh '-' cs
  let (mo, cs) ← take2 cs
  let cs ← expectCh '-' cs
  let (d, cs) ← take2 cs
  if 1 ≤ mo ∧ mo ≤ 12 ∧ 1 ≤ d ∧ d ≤ daysInMonth y mo then
    some ({ year := y, month := mo, day := d }, cs)
  else none

/-- Read a six-digit fraction (microseconds). -/
def parseFrac6 : List Char → Option (Nat × List Char)
  | a :: b :: c :: d :: e :: f :: rest =>
    if isDig a && isDig b && isDig c && isDig d && isDig e && isDig f then
      some (digVal a * 100000 + digVal b * 10000 + digVal c * 1000 +
        digVal d * 100 + digVal e * 10 + digVal f, rest)
    else none
  | _ => none

/-- Read a three-digit fraction (milliseconds, scaled to microseconds). -/
def parseFrac3 : List Char → Option (Nat × List Char)
  | a :: b :: c :: rest =>
    if isDig a && isDig b && isDig c then
      some ((digVal a * 100 + digVal b * 10 + digVal c) * 1000, rest)
    else none
  | _ => none

/-- Fractions of exactly six or exactly three digits are accepted. -/
def parseFrac (cs : List Char) : Option (Nat × List Char) :=
  match parseFrac6 cs with
  | some r => some r
  | none => parseFrac3 cs

/-- Read `HH[:MM[:SS[.frac]]]`. -/
def parseTimePart (cs : List Char) : Option (Nat × Nat × Nat × Nat × List Char) := do
  let (h, cs1) ← take2 cs
  match cs1 with
  | ':' :: cs2 => do
    let (mi, cs3) ← take2 cs2
    match cs3 with
    | ':' :: cs4 => do
      let (s, cs5) ← take2 cs4
      match cs5 with
      | '.' :: cs6 => do
        let (us, cs7) ← parseFrac cs6
        some (h, mi, s, us, cs7)
      | _ => some (h, mi, s, 0, cs5)
    | _ => some (h, mi, 0, 0, cs3)
  | _ => some (h, 0, 0, 0, cs1)

/-- Read an optional `±HH:MM` UTC offset, in minutes; absolute value must be
under 24 hours as the `timezone` constructor requires. -/
def parseOffsetPart (cs : List Char) : Option (Option Int × List Char) :=
  match cs with
  | '+' :: cs2 => do
    let (h, cs3) ← take2 cs2
    let cs4 ← expectCh ':' cs3
    let (m, cs5) ← take2 cs4
    if h * 60 + m < 1440 then some (some ((h * 60 + m : Nat) : Int), cs5) else none
  | '-' :: cs2 => do
    let (h, cs3) ← take2 cs2
    let cs4 ← expectCh ':' cs3
    let (m, cs5) ← take2 cs4
    if h * 60 + m < 1440 then some (some (-((h * 60 + m : Nat) : Int)), cs5) else none
  | _ => some (none, cs)

/-- `datetime.fromisoformat(ts)` (model): the parsed civil time plus its UTC
offset in minutes when one was attached (`none` offset = naive datetime).
Returns `none` exactly on the strings the model treats as malformed. -/
def parseTs (ts : String) : Option (DateTime × Option Int) := do
  let (d, cs) ← parseDatePart ts.data
  match cs with
  | [] => some ({ date := d, hour := 0, minute := 0, second := 0, micro := 0 }, none)
  | _sep :: cs2 => do
    let (h, mi, s, us, cs3) ← parseTimePart cs2
    let (off, cs4) ← parseOffsetPart cs3
    match cs4 with
    | [] =>
      if h ≤ 23 ∧ mi ≤ 59 ∧ s ≤ 59 ∧ us ≤ 999999 then
        some ({ date := d, hour := h, minute := mi, second := s, micro := us }, off)
      else none
    | _ => none

/-! ## Configuration (the module-level environment-configured constants) -/

/-- The scheduler's configuration surface.  Field defaults are the source's
default values; `localOffsetMinutes` is the machine's local-time UTC offset,
which the Python code consults implicitly through `datetime.now()` and
`datetime.date.today()`. -/
structure Config where
  quietStartHour : Nat := 20
  quietEndHour : Nat := 7
  maxPerDayTotal : Nat := 78
  maxPerHourTotal : Nat := 12
  maxPerDayPerDomain : Nat := 5
  perRunLimit : Nat := 999999
  localOffsetMinutes : Int := 0
deriving DecidableEq

/-- The configuration with every environment variable left at its default. -/
def defaultConfig : Config := {}

/-- The local civil time of the UTC instant `utc` (what `datetime.now()`
returns when `utc` is the current UTC time). -/
def localOf (cfg : Config) (utc : DateTime) : DateTime :=
  addMinutes utc cfg.localOffsetMinutes

/-- `datetime.date.today()`: the current local calendar date. -/
def localToday (cfg : Config) (utc : DateTime) : Date := (localOf cfg utc).date

/-! ## History store parsing and counter derivation -/

/-- `parse_sent_log`: each non-blank stripped line `email;ts` becomes a row
`(email.lower(), ts)` (a line without `;` gets an empty timestamp). -/
def parse_sent_log (lines : List String) : List (String × String) :=
  lines.foldr (fun line acc =>
    let l := pyStrip line
    if l = "" then acc
    else
      let parts := splitChar ';' l.data
      (pyLower (String.mk (parts.headD [])), String.mk ((parts.drop 1).headD [])) :: acc) []

/-- `sent_set`: the first components of the rows (set membership is what the
callers use, so the list model keeps duplicates harmlessly). -/
def sent_set (rows : List (String × String)) : List String := rows.map (fun r => r.1)

/-- `count_today`: rows whose timestamp string starts with the ISO form of
the current local calendar date. -/
def count_today (cfg : Config) (nowUtc : DateTime) (rows : List (String × String)) : Nat :=
  let today := isoDateStr (localToday cfg nowUtc)
  rows.countP (fun r => pyStartswith r.2 today)

/-- `count_today_domain`: today's rows whose address has the given domain. -/
def count_today_domain (cfg : Config) (nowUtc : DateTime) (rows : List (String × String))
    (dom : String) : Nat :=
  let today := isoDateStr (localToday cfg nowUtc)
  rows.countP (fun r => pyStartswith r.2 today && domain_of r.1 == dom)

/-- `t.astimezone(timezone.utc)` on a parsed timestamp: subtract the attached
offset, or the machine's local offset when the datetime is naive. -/
def toUtcCivil (cfg : Config) (t : DateTime) (off : Option Int) : DateTime :=
  match off with
  | some o => addMinutes t (-o)
  | none => addMinutes t (-cfg.localOffsetMinutes)

/-- The inner `within_hour` of `count_this_hour`: parse the timestamp,
convert to UTC, and compare (year, month, day, hour) with the current UTC
time; malformed strings take the `except` branch and yield `false`. -/
def within_hour (cfg : Config) (nowUtc : DateTime) (ts : String) : Bool :=
  match parseTs ts with
  | none => false
  | some (t, off) =>
    let u := toUtcCivil cfg t off
    u.date == nowUtc.date && u.hour == nowUtc.hour

/-- `count_this_hour`: rows whose timestamp falls in the current UTC
wall-clock hour. -/
def count_this_hour (cfg : Config) (nowUtc : DateTime) (rows : List (String × String)) : Nat :=
  rows.countP (fun r => within_hour cfg nowUtc r.2)

/-- The `used_domains_today` start-up derivation in `main` (lines 435-439):
count today's rows per domain. -/
def used_domains_start (cfg : Config) (nowUtc : DateTime)
    (rows : List (String × String)) : List (String × Nat) :=
  rows.foldl (fun d r =>
    if pyStartswith r.2 (isoDateStr (localToday cfg nowUtc)) then dictInc d (domain_of r.1)
    else d) []

/-! ## Quiet-window policy and delay scheduling -/

/-- `in_quiet_hours`: quiet iff `hour >= QUIET_START_HOUR or hour < QUIET_END_HOUR`. -/
def in_quiet_hours (cfg : Config) (t : DateTime) : Bool :=
  decide (cfg.quietStartHour ≤ t.hour ∨ t.hour < cfg.quietEndHour)

/-- `next_start_of_day_at(hour, minute)`: today at `hour:minute:00` when the
current hour is still below `hour`, otherwise the same time tomorrow. -/
def next_start_of_day_at (nowLocal : DateTime) (hour : Nat) (minute : Nat) : DateTime :=
  let day := if hour ≤ nowLocal.hour then nextDay nowLocal.date else nowLocal.date
  { date := day, hour := hour, minute := minute, second := 0, micro := 0 }

/-- `biased_delay_minutes`: pick the (lo, hi) profile from the local hour
(business bands 9-11 and 14-16 give (22, 45), every other hour (55, 100)),
clamp the rounded log-normal draw into [lo, hi], and add the 0-5 minute
jitter.  `lognormRound` stands for `round(random.lognormvariate(mu, sigma))`
and `jitter` for `random.randint(0, 5)`. -/
def biased_delay_minutes (now_local : DateTime) (lognormRound : Int) (jitter : Nat) : Int :=
  let p : Nat × Nat :=
    if (9 ≤ now_local.hour ∧ now_local.hour < 12) ∨ (14 ≤ now_local.hour ∧ now_local.hour < 17)
    then (22, 45) else (55, 100)
  max (p.1 : Int) (min (p.2 : Int) lognormRound) + (jitter : Int)

/-- `schedule_next`: add the sampled minutes; if the result is quiet, move to
`QUIET_END_HOUR:00:00` (next day when the hour already reached
`QUIET_START_HOUR`); finally add the 5-45 second jitter `jitterSec`. -/
def schedule_next (cfg : Config) (now_local : DateTime) (base_delay_min : Int)
    (jitterSec : Nat) : DateTime :=
  let target := addMinutes now_local base_delay_min
  let target2 :=
    if in_quiet_hours cfg target then
      let day := if cfg.quietStartHour ≤ target.hour then nextDay target.date else target.date
      { date := day, hour := cfg.quietEndHour, minute := 0, second := 0, micro := 0 }
    else target
  addSeconds target2 (jitterSec : Int)

/-! ## Recipient selector -/

/-- The truthiness test `last_domain and dom != last_domain` from
`first_unsent_rotating`: an unset or empty `last_domain` never triggers the
early rotating return. -/
def DiffOk : Option String → String → Prop
  | some ld, dom => ld ≠ "" ∧ dom ≠ ld
  | none, _ => False

instance : (l : Option String) → (d : String) → Decidable (DiffOk l d)
  | some _, _ => inferInstanceAs (Decidable (_ ∧ _))
  | none, _ => inferInstanceAs (Decidable False)

/-- Eligibility of a list entry for selection: not already sent, not failed
this run, and its domain still under the per-day domain cap (all on the
case-folded address, as in the source). -/
def Elig (cfg : Config) (already_sent failed_once : List String)
    (used_domains_today : List (String × Nat)) (a : String) : Prop :=
  pyLower a ∉ already_sent ∧ pyLower a ∉ failed_once ∧
    dictGet used_domains_today (domain_of (pyLower a)) < cfg.maxPerDayPerDomain

instance (cfg : Config) (al fl : List String) (ud : List (String × Nat)) (a : String) :
    Decidable (Elig cfg al fl ud a) := by
  unfold Elig; exact inferInstance

/-- The scanning loop of `first_unsent_rotating`, with `cand` playing
`candidate_any`. -/
def first_unsent_go (cfg : Config) (already_sent : List String)
    (used_domains_today : List (String × Nat)) (last_domain : Option String)
    (failed_once : List String) : List String → Option String → Option String
  | [], cand => cand
  | addr :: rest, cand =>
    let low := pyLower addr
    if low ∈ already_sent ∨ low ∈ failed_once then
      first_unsent_go cfg already_sent used_domains_today last_domain failed_once rest cand
    else
      let dom := domain_of low
      if cfg.maxPerDayPerDomain ≤ dictGet used_domains_today dom then
        first_unsent_go cfg already_sent used_domains_today last_domain failed_once rest cand
      else if DiffOk last_domain dom then some low
      else
        match cand with
        | none =>
          first_unsent_go cfg already_sent used_domains_today last_domain failed_once rest (some low)
        | some _ =>
          first_unsent_go cfg already_sent used_domains_today last_domain failed_once rest cand

/-- `first_unsent_rotating` from the source: scan the list once, return the
first eligible address whose domain differs from `last_domain` (when that is
set and nonempty), else the first eligible address seen, else `None`. -/
def first_unsent_rotating (cfg : Config) (emails : List String)
    (already_sent : List String) (used_domains_today : List (String × Nat))
    (last_domain : Option String) (failed_once : List String) : Option String :=
  first_unsent_go cfg already_sent used_domains_today last_domain failed_once emails none

/-! ## The run loop as a step function with an event trace

External effects are oracles: the clock values the iteration reads, the
results of `wait_until` / connectivity waits / the hotkey poll, the SMTP
outcome, the random draws, and the sent-log content at the re-derivation
point.  Observable actions are recorded as events so that temporal claims
(what happens after a failure, what a wait targets) are statable. -/

/-- Observable actions of one loop iteration. -/
inductive Event where
  | waited (target : DateTime)
  | sendAttempt (addr : String)
  | logged (addr : String)
  | delaySampled (minutes : Int)
deriving DecidableEq

/-- Why the `while` loop stopped via `break` (or `continue`d into a state
that can no longer proceed). -/
inductive StopReason where
  | aborted
  | offline
  | exhausted
  | dailyLimit
deriving DecidableEq

/-- The in-memory run state carried across loop iterations. -/
structure LoopState where
  sentCount : Nat
  todayTotal : Nat
  hourTotal : Nat
  already : List String
  usedDomainsToday : List (String × Nat)
  lastDomain : Option String
  failedOnce : List String
deriving DecidableEq

/-- Result of one loop iteration. -/
inductive StepResult where
  | next (s : LoopState)
  | stop (r : StopReason)
deriving DecidableEq

/-- Oracle inputs consumed by one loop iteration. -/
structure IterOracle where
  nowCap : DateTime
  waitCapOk : Bool
  connCapOk : Bool
  logLines : List String
  nowUtcRederive : DateTime
  hotkeyOk : Bool
  connOk : Bool
  smtpOk : Bool
  nowAfterSend : DateTime
  lognormRound : Int
  jitterMin : Nat
  jitterSec : Nat
  waitNextOk : Bool
  connEndOk : Bool
deriving DecidableEq

/-- `(now + timedelta(hours=1)).replace(minute=0, second=0, microsecond=0)`
from the hourly-cap branch. -/
def top_of_next_hour (nowLocal : DateTime) : DateTime :=
  let t := addMinutes nowLocal 60
  { t with minute := 0, second := 0, micro := 0 }

/-- One iteration of the `while` loop in `main` (source lines 458-539),
entered with the loop guard already checked.  Returns the events the
iteration performed, in order, and either the successor state or the reason
the loop stopped. -/
def loopStep (cfg : Config) (emails : List String) (s : LoopState)
    (o : IterOracle) : List Event × StepResult :=
  if cfg.maxPerHourTotal ≤ s.hourTotal then
    let next_hour := top_of_next_hour o.nowCap
    if !o.waitCapOk then ([Event.waited next_hour], .stop .aborted)
    else if !o.connCapOk then ([Event.waited next_hour], .stop .offline)
    else
      let rows := parse_sent_log o.logLines
      ([Event.waited next_hour],
       .next { s with hourTotal := count_this_hour cfg o.nowUtcRederive rows })
  else
    match first_unsent_rotating cfg emails s.already s.usedDomainsToday s.lastDomain
        s.failedOnce with
    | none => ([], .stop .exhausted)
    | some addr =>
      if addr = "" then ([], .stop .exhausted)
      else if !o.hotkeyOk then ([], .stop .aborted)
      else if !o.connOk then ([], .stop .offline)
      else
      let after : LoopState × List Event :=
        if o.smtpOk then
          ({ s with already := pyLower addr :: s.already,
                    usedDomainsToday := dictInc s.usedDomainsToday (domain_of addr),
                    lastDomain := some (domain_of addr),
                    sentCount := s.sentCount + 1,
                    todayTotal := s.todayTotal + 1,
                    hourTotal := s.hourTotal + 1 },
           [Event.sendAttempt addr, Event.logged addr])
        else
          ({ s with failedOnce := pyLower addr :: s.failedOnce,
                    lastDomain := some (domain_of addr) },
           [Event.sendAttempt addr])
      let s2 := after.1
      let evs := after.2
      if cfg.maxPerDayTotal ≤ s2.todayTotal then (evs, .stop .dailyLimit)
      else
        let base := biased_delay_minutes o.nowAfterSend o.lognormRound o.jitterMin
        let target := schedule_next cfg o.nowAfterSend base o.jitterSec
        let evs2 := evs ++ [Event.delaySampled base, Event.waited target]
        if !o.waitNextOk then (evs2, .stop .aborted)
        else if !o.connEndOk then (evs2, .stop .offline)
        else (evs2, .next s2)

/-- Why the run ended. -/
inductive EndReason where
  | stopped (r : StopReason)
  | guardDone
  | ranOut
deriving DecidableEq

/-- The `while` loop of `main`, driven by a finite list of per-iteration
oracles (`ranOut` reports that the model's oracle supply ended while the
loop guard still held). -/
def runLoop (cfg : Config) (emails : List String) :
    LoopState → List IterOracle → List Event × EndReason
  | s, [] =>
    if s.sentCount < cfg.perRunLimit ∧ s.todayTotal < cfg.maxPerDayTotal then ([], .ranOut)
    else ([], .guardDone)
  | s, o :: os =>
    if s.sentCount < cfg.perRunLimit ∧ s.todayTotal < cfg.maxPerDayTotal then
      match loopStep cfg emails s o with
      | (evs, .stop r) => (evs, .stopped r)
      | (evs, .next s') =>
        let rest := runLoop cfg emails s' os
        (evs ++ rest.1, rest.2)
    else ([], .guardDone)

/-- Oracle inputs consumed before the loop starts. -/
structure StartOracle where
  nowUtc : DateTime
  nowLocalWindow : DateTime
  windowWaitOk : Bool
  connOk : Bool
deriving DecidableEq

/-- `main` after the `--test` branch (source lines 428-541): derive the
counters from the sent log, stop at once when the daily cap is already
reached, wait out quiet hours (`ensure_business_window`), wait for
connectivity, then run the loop. -/
def mainRun (cfg : Config) (so : StartOracle) (logLines : List String)
    (emails : List String) (iters : List IterOracle) : List Event × EndReason :=
  let sent_rows := parse_sent_log logLines
  let already := sent_set sent_rows
  let today_total := count_today cfg so.nowUtc sent_rows
  let hour_total := count_this_hour cfg so.nowUtc sent_rows
  let used := used_domains_start cfg so.nowUtc sent_rows
  if cfg.maxPerDayTotal ≤ today_total then ([], .stopped .dailyLimit)
  else
    let quietNow := in_quiet_hours cfg so.nowLocalWindow
    let startEvs :=
      if quietNow then
        [Event.waited (next_start_of_day_at so.nowLocalWindow cfg.quietEndHour 0)]
      else []
    if quietNow && !so.windowWaitOk then (startEvs, .stopped .aborted)
    else if !so.connOk then (startEvs, .stopped .offline)
    else
      let s0 : LoopState :=
        { sentCount := 0, todayTotal := today_total, hourTotal := hour_total,
          already := already, usedDomainsToday := used, lastDomain := none,
          failedOnce := [] }
      let rest := runLoop cfg emails s0 iters
      (startEvs ++ rest.1, rest.2)

/-- The addresses given to `smtp_send_one` during a run, in order. -/
def send_targets (evs : List Event) : List String :=
  evs.filterMap (fun e =>
    match e with
    | Event.sendAttempt a => some a
    | _ => none)


/-- Follows the specification's words for `today_total` ("count of records
whose timestamp falls on the current local calendar date"): parse the
timestamp, take the instant it denotes, convert that instant to local civil
time, and compare calendar dates.  Declared only to compare the code's
`count_today` (a string-prefix test against the local date) with the
specification's description. -/
def specTodayCount (cfg : Config) (nowUtc : DateTime) (rows : List (String × String)) : Nat :=
  rows.countP (fun r =>
    match parseTs r.2 with
    | none => false
    | some (t, off) => (localOf cfg (toUtcCivil cfg t off)).date == localToday cfg nowUtc)

/-- A start state for concrete loop-iteration evaluations: nothing sent yet,
no exclusions. -/
def freshState : LoopState :=
  { sentCount := 0, todayTotal := 0, hourTotal := 0, already := [],
    usedDomainsToday := [], lastDomain := none, failedOnce := [] }

/-- A concrete iteration oracle whose SMTP send fails and whose waits and
polls all succeed, at local time 2026-10-12 10:00. -/
def c1Oracle : IterOracle :=
  { nowCap := ⟨⟨2026, 10, 12⟩, 10, 0, 0, 0⟩, waitCapOk := true, connCapOk := true,
    logLines := [], nowUtcRederive := ⟨⟨2026, 10, 12⟩, 10, 0, 0, 0⟩, hotkeyOk := true,
    connOk := true, smtpOk := false, nowAfterSend := ⟨⟨2026, 10, 12⟩, 10, 0, 0, 0⟩,
    lognormRound := 30, jitterMin := 2, jitterSec := 10, waitNextOk := true,
    connEndOk := true }

/-- A state at the hourly cap (12 sends this hour under the default config),
with in-memory `today_total` 0 and no per-domain counts. -/
def c3State : LoopState :=
  { sentCount := 0, todayTotal := 0, hourTotal := 12, already := [],
    usedDomainsToday := [], lastDomain := none, failedOnce := [] }

/-- A concrete iteration oracle for the hourly-cap branch: the store holds
one send (recorded today, within the current UTC hour) that the in-memory
counters have not seen — as an external writer would leave behind. -/
def c3Oracle : IterOracle :=
  { nowCap := ⟨⟨2026, 10, 12⟩, 10, 15, 0, 0⟩, waitCapOk := true, connCapOk := true,
    logLines := ["a@x.com;2026-10-12T10:05:00+00:00"],
    nowUtcRederive := ⟨⟨2026, 10, 12⟩, 10, 30, 0, 0⟩, hotkeyOk := true,
    connOk := true, smtpOk := true, nowAfterSend := ⟨⟨2026, 10, 12⟩, 10, 0, 0, 0⟩,
    lognormRound := 30, jitterMin := 0, jitterSec := 5, waitNextOk := true,
    connEndOk := true }

/-- Selection predicate for the rotating early return: eligible and with a
domain that differs from a set, nonempty `last_domain`. -/
def selDiff (cfg : Config) (already failed : List String) (used : List (String × Nat))
    (last : Option String) (a : String) : Bool :=
  decide (Elig cfg already failed used a) && decide (DiffOk last (domain_of (pyLower a)))

/-- Plain eligibility as a Bool predicate (for `candidate_any`). -/
def selAny (cfg : Config) (already failed : List String) (used : List (String × Nat))
    (a : String) : Bool :=
  decide (Elig cfg already failed used a)

/-- Bounds under which the printed ISO date determines the date; Python
dates always satisfy them (the year is at most 9999, month and day are two
digits). -/
def DateOk (d : Date) : Prop := d.year ≤ 9999 ∧ d.month ≤ 99 ∧ d.day ≤ 99

instance (d : Date) : Decidable (DateOk d) := by
  unfold DateOk; exact inferInstance

/-! ## Helper lemmas: characters, case folding, prefixes, ISO dates -/

theorem data_mk (l : List Char) : (String.mk l).data = l := rfl

theorem char_toNat_ofNat_small : ∀ n, n < 123 → (Char.ofNat n).toNat = n := by decide

theorem lowerChar_idem (c : Char) : lowerChar (lowerChar c) = lowerChar c := by
  unfold lowerChar
  by_cases h : 65 ≤ c.toNat ∧ c.toNat ≤ 90
  · have h32 : (Char.ofNat (c.toNat + 32)).toNat = c.toNat + 32 :=
      char_toNat_ofNat_small _ (by omega)
    simp only [if_pos h, h32]
    rw [if_neg (by omega)]
  · simp only [if_neg h]

theorem map_lowerChar_idem : ∀ l : List Char,
    (l.map lowerChar).map lowerChar = l.map lowerChar := by
  intro l
  induction l with
  | nil => rfl
  | cons c cs ih => simp only [List.map_cons, lowerChar_idem, ih]

theorem pyLower_idem (s : String) : pyLower (pyLower s) = pyLower s := by
  unfold pyLower
  rw [data_mk, map_lowerChar_idem]

theorem chPre_append_self (p r : List Char) : chPre p (p ++ r) = true := by
  induction p with
  | nil => rfl
  | cons a as ih => simp [chPre, ih]

theorem chPre_eq_of_length (p q r : List Char) (hl : p.length = q.length)
    (h : chPre p (q ++ r) = true) : p = q := by
  induction p generalizing q with
  | nil =>
    cases q with
    | nil => rfl
    | cons b bs => simp at hl
  | cons a as ih =>
    cases q with
    | nil => simp at hl
    | cons b bs =>
      simp only [List.cons_append, chPre, Bool.and_eq_true, beq_iff_eq] at h
      simp only [List.length_cons, Nat.succ.injEq] at hl
      exact h.1 ▸ congrArg _ (ih bs hl h.2)

theorem digitChar_inj : ∀ m, m < 10 → ∀ n, n < 10 → digitChar m = digitChar n → m = n := by
  decide

theorem digitChar_eq (m n : Nat) (h : digitChar m = digitChar n) : m % 10 = n % 10 := by
  have h1 : digitChar (m % 10) = digitChar (n % 10) := by
    have em : m % 10 % 10 = m % 10 := by omega
    have en : n % 10 % 10 = n % 10 := by omega
    simpa only [digitChar, em, en] using h
  exact digitChar_inj _ (Nat.mod_lt _ (by omega)) _ (Nat.mod_lt _ (by omega)) h1

theorem isoDateChars_length (d : Date) : (isoDateChars d).length = 10 := rfl

theorem isoDateChars_inj (a b : Date) (ha : DateOk a) (hb : DateOk b)
    (h : isoDateChars a = isoDateChars b) : a = b := by
  obtain ⟨ha1, ha2, ha3⟩ := ha
  obtain ⟨hb1, hb2, hb3⟩ := hb
  simp only [isoDateChars, pad4, pad2, List.cons_append, List.nil_append,
    List.cons.injEq, and_true] at h
  obtain ⟨e1, e2, e3, e4, -, e5, e6, -, e7, e8⟩ := h
  have y1 := digitChar_eq _ _ e1
  have y2 := digitChar_eq _ _ e2
  have y3 := digitChar_eq _ _ e3
  have y4 := digitChar_eq _ _ e4
  have m1 := digitChar_eq _ _ e5
  have m2 := digitChar_eq _ _ e6
  have d1 := digitChar_eq _ _ e7
  have d2 := digitChar_eq _ _ e8
  have hy : a.year = b.year := by omega
  have hm : a.month = b.month := by omega
  have hd : a.day = b.day := by omega
  cases a; cases b; simp_all

/-- A canonical `utc_now_iso` timestamp starts with the ISO form of a date
exactly when that date is its own (UTC) calendar date. -/
theorem pyStartswith_utc_iso (t : DateTime) (D : Date) (h1 : DateOk t.date)
    (h2 : DateOk D) : pyStartswith (utc_now_iso t) (isoDateStr D) = true ↔ t.date = D := by
  unfold pyStartswith utc_now_iso isoDateStr
  rw [data_mk, data_mk, List.append_assoc]
  constructor
  · intro h
    have := chPre_eq_of_length _ _ _
      (by rw [isoDateChars_length, isoDateChars_length]) h
    exact (isoDateChars_inj _ _ h2 h1 this).symm
  · intro h
    rw [h]
    exact chPre_append_self _ _

theorem first_unsent_go_spec (cfg : Config) (already failed : List String)
    (used : List (String × Nat)) (last : Option String) :
    ∀ (es : List String) (cand : Option String),
      first_unsent_go cfg already used last failed es cand =
        match es.find? (selDiff cfg already failed used last) with
        | some a => some (pyLower a)
        | none =>
          match cand with
          | some c => some c
          | none => (es.find? (selAny cfg already failed used)).map pyLower := by
  intro es
  induction es with
  | nil =>
    intro cand
    cases cand <;> simp [first_unsent_go]
  | cons addr rest ih =>
    intro cand
    by_cases hmem : pyLower addr ∈ already ∨ pyLower addr ∈ failed
    · have he : selAny cfg already failed used addr = false := by
        simp only [selAny, decide_eq_false_iff_not, Elig]
        tauto
      have hd : selDiff cfg already failed used last addr = false := by
        simp only [selDiff, Bool.and_eq_false_iff]
        left
        simp only [decide_eq_false_iff_not, Elig]
        tauto
      rw [show first_unsent_go cfg already used last failed (addr :: rest) cand =
            first_unsent_go cfg already used last failed rest cand by
          simp [first_unsent_go, hmem]]
      rw [List.find?_cons_of_neg _ (by simp [hd]), List.find?_cons_of_neg _ (by simp [he])]
      exact ih cand
    · by_cases hcap : cfg.maxPerDayPerDomain ≤ dictGet used (domain_of (pyLower addr))
      · have he : selAny cfg already failed used addr = false := by
          simp only [selAny, decide_eq_false_iff_not, Elig]
          intro h
          omega
        have hd : selDiff cfg already failed used last addr = false := by
          simp only [selDiff, Bool.and_eq_false_iff]
          left
          simp only [decide_eq_false_iff_not, Elig]
          intro h
          omega
        rw [show first_unsent_go cfg already used last failed (addr :: rest) cand =
              first_unsent_go cfg already used last failed rest cand by
            simp [first_unsent_go, hmem, hcap]]
        rw [List.find?_cons_of_neg _ (by simp [hd]), List.find?_cons_of_neg _ (by simp [he])]
        exact ih cand
      · have helig : Elig cfg already failed used addr := by
          push_neg at hmem
          exact ⟨hmem.1, hmem.2, by omega⟩
        have he : selAny cfg already failed used addr = true := by
          simp [selAny, helig]
        by_cases hdiff : DiffOk last (domain_of (pyLower addr))
        · have hd : selDiff cfg already failed used last addr = true := by
            simp [selDiff, helig, hdiff]
          rw [show first_unsent_go cfg already used last failed (addr :: rest) cand =
                some (pyLower addr) by
              simp [first_unsent_go, hmem, hcap, hdiff]]
          rw [List.find?_cons_of_pos _ hd]
        · have hd : selDiff cfg already failed used last addr = false := by
            simp [selDiff, hdiff]
          rw [List.find?_cons_of_neg _ (by simp [hd]), List.find?_cons_of_pos _ he]
          cases cand with
          | none =>
            rw [show first_unsent_go cfg already used last failed (addr :: rest) none =
                  first_unsent_go cfg already used last failed rest (some (pyLower addr)) by
                simp [first_unsent_go, hmem, hcap, hdiff]]
            rw [ih (some (pyLower addr))]
            cases List.find? (selDiff cfg already failed used last) rest <;> simp
          | some c =>
            rw [show first_unsent_go cfg already used last failed (addr :: rest) (some c) =
                  first_unsent_go cfg already used last failed rest (some c) by
                simp [first_unsent_go, hmem, hcap, hdiff]]
            rw [ih (some c)]

theorem first_unsent_rotating_eq (cfg : Config) (emails already failed : List String)
    (used : List (String × Nat)) (last : Option String) :
    first_unsent_rotating cfg emails already used last failed =
      match emails.find? (selDiff cfg already failed used last) with
      | some a => some (pyLower a)
      | none => (emails.find? (selAny cfg already failed used)).map pyLower := by
  unfold first_unsent_rotating
  rw [first_unsent_go_spec]

theorem first_unsent_rotating_none_iff (cfg : Config) (emails already failed : List String)
    (used : List (String × Nat)) (last : Option String) :
    first_unsent_rotating cfg emails already used last failed = none ↔
      ∀ a ∈ emails, ¬ Elig cfg already failed used a := by
  rw [first_unsent_rotating_eq]
  constructor
  · intro h a ha helig
    cases hfd : emails.find? (selDiff cfg already failed used last) with
    | some b => rw [hfd] at h; simp at h
    | none =>
      rw [hfd] at h
      cases hfa : emails.find? (selAny cfg already failed used) with
      | some b => rw [hfa] at h; simp at h
      | none =>
        have := List.find?_eq_none.mp hfa a ha
        simp [selAny, helig] at this
  · intro h
    have hfa : emails.find? (selAny cfg already failed used) = none := by
      rw [List.find?_eq_none]
      intro a ha
      simp only [selAny, decide_eq_true_eq]
      exact h a ha
    have hfd : emails.find? (selDiff cfg already failed used last) = none := by
      rw [List.find?_eq_none]
      intro a ha
      simp only [selDiff, Bool.and_eq_true, decide_eq_true_eq, not_and]
      intro helig
      exact absurd helig (h a ha)
    rw [hfd, hfa]
    rfl

theorem first_unsent_rotating_some (cfg : Config) (emails already failed : List String)
    (used : List (String × Nat)) (last : Option String) (r : String)
    (h : first_unsent_rotating cfg emails already used last failed = some r) :
    ∃ a ∈ emails, r = pyLower a ∧ Elig cfg already failed used a := by
  rw [first_unsent_rotating_eq] at h
  cases hfd : emails.find? (selDiff cfg already failed used last) with
  | some a =>
    rw [hfd] at h
    have hmem := List.mem_of_find?_eq_some hfd
    have hp := List.find?_some hfd
    simp only [selDiff, Bool.and_eq_true, decide_eq_true_eq] at hp
    simp only [Option.some.injEq] at h
    exact ⟨a, hmem, h.symm, hp.1⟩
  | none =>
    rw [hfd] at h
    cases hfa : emails.find? (selAny cfg already failed used) with
    | some a =>
      rw [hfa] at h
      have hmem := List.mem_of_find?_eq_some hfa
      have hp := List.find?_some hfa
      simp only [selAny, decide_eq_true_eq] at hp
      simp only [Option.map_some', Option.some.injEq] at h
      exact ⟨a, hmem, h.symm, hp⟩
    | none => rw [hfa] at h; simp at h

theorem first_unsent_rotating_some_props (cfg : Config) (emails already failed : List String)
    (used : List (String × Nat)) (last : Option String) (r : String)
    (h : first_unsent_rotating cfg emails already used last failed = some r) :
    r ∉ already ∧ r ∉ failed ∧
      dictGet used (domain_of r) < cfg.maxPerDayPerDomain ∧ pyLower r = r := by
  obtain ⟨a, _, hr, he1, he2, he3⟩ := first_unsent_rotating_some cfg emails already failed used last r h
  subst hr
  exact ⟨he1, he2, he3, pyLower_idem a⟩

theorem Date.lt_nextDay (d : Date) : Date.lt d (nextDay d) := by
  obtain ⟨y, mo, da⟩ := d
  unfold nextDay Date.lt
  split
  · dsimp only
    omega
  · split <;> dsimp only <;> omega

theorem next_start_strictly_after (now : DateTime) (h m : Nat) :
    DateTime.lt now (next_start_of_day_at now h m) := by
  unfold next_start_of_day_at DateTime.lt
  by_cases hc : h ≤ now.hour
  · simp only [if_pos hc]
    exact Or.inl (Date.lt_nextDay _)
  · simp only [if_neg hc]
    exact Or.inr ⟨trivial, Or.inl (by omega)⟩

theorem next_start_hour (now : DateTime) (h m : Nat) :
    (next_start_of_day_at now h m).hour = h ∧
      (next_start_of_day_at now h m).minute = m ∧
      (next_start_of_day_at now h m).second = 0 := by
  unfold next_start_of_day_at
  exact ⟨rfl, rfl, rfl⟩

theorem next_start_not_quiet (cfg : Config) (now : DateTime)
    (hq : cfg.quietEndHour < cfg.quietStartHour) :
    in_quiet_hours cfg (next_start_of_day_at now cfg.quietEndHour 0) = false := by
  unfold in_quiet_hours next_start_of_day_at
  simp only [decide_eq_false_iff_not]
  omega

/-- Claim C3 (amended): when the loop finds `hour_total >= hourly_cap` and
the waits complete, it blocks until the top of the next clock hour and then
re-derives only `hour_total` from the History Store before continuing;
`today_total` and the per-domain counters are left at their in-memory
values (the claim's assertion that they too are re-derived fails; see the
counterexample). -/
theorem claim_C3_amended (cfg : Config) (emails : List String) (s : LoopState)
    (o : IterOracle) (hcap : cfg.maxPerHourTotal ≤ s.hourTotal)
    (hw : o.waitCapOk = true) (hc : o.connCapOk = true) :
    loopStep cfg emails s o =
      ([Event.waited (top_of_next_hour o.nowCap)],
       .next { s with
         hourTotal := count_this_hour cfg o.nowUtcRederive (parse_sent_log o.logLines) }) := by
  simp [loopStep, hcap, hw, hc]

theorem loopStep_success_cap (cfg : Config) (emails : List String) (s : LoopState)
    (o : IterOracle) (addr : String)
    (hno : s.hourTotal < cfg.maxPerHourTotal)
    (hsel : first_unsent_rotating cfg emails s.already s.usedDomainsToday s.lastDomain
      s.failedOnce = some addr)
    (hne : addr ≠ "") (hk : o.hotkeyOk = true) (hcn : o.connOk = true)
    (hs : o.smtpOk = true) (hcap : cfg.maxPerDayTotal ≤ s.todayTotal + 1) :
    loopStep cfg emails s o =
      ([Event.sendAttempt addr, Event.logged addr], .stop .dailyLimit) := by
  have hno' : ¬ cfg.maxPerHourTotal ≤ s.hourTotal := by omega
  simp [loopStep, hno', hsel, hne, hk, hcn, hs, hcap]

theorem loopStep_attempts (cfg : Config) (emails : List String) (s : LoopState)
    (o : IterOracle) :
    (send_targets (loopStep cfg emails s o).1 = [] ∧
      ∀ s', (loopStep cfg emails s o).2 = .next s' →
        s'.already = s.already ∧ s'.failedOnce = s.failedOnce) ∨
    (∃ addr,
      first_unsent_rotating cfg emails s.already s.usedDomainsToday s.lastDomain
        s.failedOnce = some addr ∧
      send_targets (loopStep cfg emails s o).1 = [addr] ∧
      ∀ s', (loopStep cfg emails s o).2 = .next s' →
        (s'.already = pyLower addr :: s.already ∧ s'.failedOnce = s.failedOnce) ∨
        (s'.already = s.already ∧ s'.failedOnce = pyLower addr :: s.failedOnce)) := by
  by_cases h1 : cfg.maxPerHourTotal ≤ s.hourTotal
  · left
    cases hw : o.waitCapOk <;> cases hc : o.connCapOk <;>
      simp [loopStep, h1, hw, hc, send_targets]
  · cases hsel : first_unsent_rotating cfg emails s.already s.usedDomainsToday s.lastDomain
        s.failedOnce with
    | none => left; simp [loopStep, h1, hsel, send_targets]
    | some addr =>
      by_cases h2 : addr = ""
      · left; simp [loopStep, h1, hsel, h2, send_targets]
      · cases hk : o.hotkeyOk with
        | false => left; simp [loopStep, h1, hsel, h2, hk, send_targets]
        | true =>
          cases hcn : o.connOk with
          | false => left; simp [loopStep, h1, hsel, h2, hk, hcn, send_targets]
          | true =>
            right
            refine ⟨addr, hsel ▸ rfl, ?_⟩
            cases hs : o.smtpOk with
            | true =>
              by_cases h3 : cfg.maxPerDayTotal ≤ s.todayTotal + 1
              · simp [loopStep, h1, hsel, h2, hk, hcn, hs, h3, send_targets]
              · cases hwn : o.waitNextOk <;> cases hce : o.connEndOk <;>
                  simp [loopStep, h1, hsel, h2, hk, hcn, hs, h3, hwn, hce, send_targets]
            | false =>
              by_cases h3 : cfg.maxPerDayTotal ≤ s.todayTotal
              · simp [loopStep, h1, hsel, h2, hk, hcn, hs, h3, send_targets]
              · cases hwn : o.waitNextOk <;> cases hce : o.connEndOk <;>
                  simp [loopStep, h1, hsel, h2, hk, hcn, hs, h3, hwn, hce, send_targets]

theorem runLoop_attempts (cfg : Config) (emails : List String) :
    ∀ (iters : List IterOracle) (s : LoopState),
      (∀ a ∈ send_targets (runLoop cfg emails s iters).1,
        a ∉ s.already ∧ a ∉ s.failedOnce) ∧
      (send_targets (runLoop cfg emails s iters).1).Nodup := by
  intro iters
  induction iters with
  | nil =>
    intro s
    by_cases hg : s.sentCount < cfg.perRunLimit ∧ s.todayTotal < cfg.maxPerDayTotal <;>
      simp [runLoop, hg, send_targets]
  | cons o os ih =>
    intro s
    by_cases hg : s.sentCount < cfg.perRunLimit ∧ s.todayTotal < cfg.maxPerDayTotal
    · rcases hLS : loopStep cfg emails s o with ⟨evs, res⟩
      have hsp := loopStep_attempts cfg emails s o
      rw [hLS] at hsp
      cases res with
      | stop r =>
        have hrun : runLoop cfg emails s (o :: os) = (evs, .stopped r) := by
          simp [runLoop, hg, hLS]
        rw [hrun]
        rcases hsp with ⟨he, -⟩ | ⟨addr, hsel, he, -⟩
        · simp [he]
        · simp only [he]
          have hp := first_unsent_rotating_some_props cfg emails s.already s.failedOnce
            s.usedDomainsToday s.lastDomain addr hsel
          constructor
          · intro a ha
            simp only [List.mem_singleton] at ha
            subst ha
            exact ⟨hp.1, hp.2.1⟩
          · exact List.nodup_singleton _
      | next s' =>
        have hrun : runLoop cfg emails s (o :: os) =
            (evs ++ (runLoop cfg emails s' os).1, (runLoop cfg emails s' os).2) := by
          simp [runLoop, hg, hLS]
        rw [hrun]
        have htail := ih s'
        rcases hsp with ⟨he, hst⟩ | ⟨addr, hsel, he, hst⟩
        · obtain ⟨h1, h2⟩ := hst s' rfl
          simp only [send_targets, List.filterMap_append] at *
          rw [he]
          simp only [List.nil_append]
          constructor
          · intro a ha
            have := htail.1 a ha
            rw [h1, h2] at this
            exact this
          · exact htail.2
        · obtain hcase := hst s' rfl
          have hp := first_unsent_rotating_some_props cfg emails s.already s.failedOnce
            s.usedDomainsToday s.lastDomain addr hsel
          simp only [send_targets, List.filterMap_append] at *
          rw [he]
          constructor
          · intro a ha
            simp only [List.cons_append, List.nil_append, List.mem_cons] at ha
            rcases ha with rfl | ha
            · exact ⟨hp.1, hp.2.1⟩
            · have := htail.1 a ha
              rcases hcase with ⟨h1, h2⟩ | ⟨h1, h2⟩ <;> rw [h1, h2] at this <;>
                exact ⟨fun hx => this.1 (by simp [hx]), fun hx => this.2 (by simp [hx])⟩
          · simp only [List.cons_append, List.nil_append, List.nodup_cons]
            constructor
            · intro hmem
              have := htail.1 addr hmem
              have hlow : pyLower addr = addr := hp.2.2.2
              rcases hcase with ⟨h1, h2⟩ | ⟨h1, h2⟩
              · rw [h1] at this
                exact this.1 (by rw [hlow]; exact List.mem_cons_self _ _)
              · rw [h2] at this
                exact this.2 (by rw [hlow]; exact List.mem_cons_self _ _)
            · exact htail.2
    · simp [runLoop, hg, send_targets]

theorem mainRun_attempts_nodup (cfg : Config) (so : StartOracle) (logLines : List String)
    (emails : List String) (iters : List IterOracle) :
    (send_targets (mainRun cfg so logLines emails iters).1).Nodup := by
  by_cases h1 : cfg.maxPerDayTotal ≤ count_today cfg so.nowUtc (parse_sent_log logLines)
  · simp [mainRun, h1, send_targets]
  · cases hq : in_quiet_hours cfg so.nowLocalWindow <;>
      cases hw : so.windowWaitOk <;>
      cases hcn : so.connOk <;>
      simp [mainRun, h1, hq, hw, hcn, send_targets, List.filterMap_append] <;>
      exact (runLoop_attempts cfg emails _ _).2

theorem pyStartswith_utc_iso_bool (t : DateTime) (D : Date) (h1 : DateOk t.date)
    (h2 : DateOk D) : pyStartswith (utc_now_iso t) (isoDateStr D) = (t.date == D) := by
  by_cases hd : t.date = D
  · rw [(pyStartswith_utc_iso t D h1 h2).mpr hd]
    simp [hd]
  · have hne : pyStartswith (utc_now_iso t) (isoDateStr D) ≠ true := by
      intro hcon
      exact hd ((pyStartswith_utc_iso t D h1 h2).mp hcon)
    simp only [Bool.not_eq_true] at hne
    rw [hne]
    exact (beq_eq_false_iff_ne.mpr hd).symm

/-- Claim C2 (amended): for every history of canonically formatted UTC
timestamps and every current instant, the derived `today_total` equals the
number of records whose timestamp string begins with the ISO form of the
current *local* calendar date — equivalently, whose *UTC* calendar date
equals the current local calendar date.  (The claim as stated, with the
record's instant converted to local time, fails; see the counterexample.) -/
theorem claim_C2_amended (cfg : Config) (nowUtc : DateTime)
    (rows0 : List (String × DateTime))
    (hv : ∀ r ∈ rows0, DateOk r.2.date) (hD : DateOk (localToday cfg nowUtc)) :
    count_today cfg nowUtc (rows0.map (fun r => (r.1, utc_now_iso r.2))) =
      rows0.countP (fun r => r.2.date == localToday cfg nowUtc) := by
  unfold count_today
  induction rows0 with
  | nil => rfl
  | cons r rs ih =>
    simp only [List.map_cons, List.countP_cons]
    rw [ih (fun x hx => hv x (List.mem_cons_of_mem _ hx))]
    congr 1
    rw [pyStartswith_utc_iso_bool r.2 _ (hv r (List.mem_cons_self _ _)) hD]

/-- Claim C7: for every current local time and every outcome of the random
source (`draw` models `round(lognormvariate(mu, sigma))`, `jitter` the
`randint(0, 5)` draw), the sampled delay lies in [22, 45+5] minutes during
the business-hour bands 9-11 and 14-16, and in [55, 100+5] otherwise. -/
theorem claim_C7 (now_local : DateTime) (draw : Int) (jitter : Nat)
    (hj : jitter ≤ 5) :
    (((9 ≤ now_local.hour ∧ now_local.hour < 12) ∨
        (14 ≤ now_local.hour ∧ now_local.hour < 17)) →
      22 ≤ biased_delay_minutes now_local draw jitter ∧
        biased_delay_minutes now_local draw jitter ≤ 50) ∧
    (¬((9 ≤ now_local.hour ∧ now_local.hour < 12) ∨
        (14 ≤ now_local.hour ∧ now_local.hour < 17)) →
      55 ≤ biased_delay_minutes now_local draw jitter ∧
        biased_delay_minutes now_local draw jitter ≤ 105) := by
  have hj' : (jitter : Int) ≤ 5 := by exact_mod_cast hj
  have hj0 : (0 : Int) ≤ (jitter : Int) := by positivity
  unfold biased_delay_minutes
  constructor
  · intro h
    simp only [if_pos h]
    have h1 : (22 : Int) ≤ max 22 (min 45 draw) := le_max_left _ _
    have h2 : max (22 : Int) (min 45 draw) ≤ 45 := max_le (by norm_num) (min_le_left _ _)
    omega
  · intro h
    simp only [if_neg h]
    have h1 : (55 : Int) ≤ max 55 (min 100 draw) := le_max_left _ _
    have h2 : max (55 : Int) (min 100 draw) ≤ 100 := max_le (by norm_num) (min_le_left _ _)
    omega

/-- Claim C1 (code bug): after a FAILED send attempt the loop body does not
`continue`; it falls through to the delay sampling and the scheduled wait.
Evaluating one iteration with a failing SMTP oracle shows the trace
`sendAttempt; delaySampled; waited` — the failed recipient is added to
`failedThisRun` and `lastDomainUsed` is set as claimed, but the iteration
then samples a delay (30 clamps to 30, plus jitter 2) and waits until
10:32:10, contradicting both the claim and the source's own comment
"No waiting here, go straight to the next address." -/
theorem claim_C1_code_eval :
    loopStep defaultConfig ["a@x.com"] freshState c1Oracle =
      ([Event.sendAttempt "a@x.com", Event.delaySampled 32,
        Event.waited ⟨⟨2026, 10, 12⟩, 10, 32, 10, 0⟩],
       .next { freshState with failedOnce := ["a@x.com"], lastDomain := some "x.com" }) := by
  decide

/-- Claim C2 (counterexample): with a +120 minute local offset, at UTC
2026-10-11 22:40 (local 2026-10-12 00:40), a record stamped UTC
2026-10-11 22:30 falls on the local calendar date 2026-10-12, so the claim
says `today_total` counts it; the code's prefix test against the local date
string counts 0. -/
theorem claim_C2_counterexample :
    count_today { defaultConfig with localOffsetMinutes := 120 }
      ⟨⟨2026, 10, 11⟩, 22, 40, 0, 0⟩ [("a@x.com", "2026-10-11T22:30:00+00:00")] = 0 ∧
    specTodayCount { defaultConfig with localOffsetMinutes := 120 }
      ⟨⟨2026, 10, 11⟩, 22, 40, 0, 0⟩ [("a@x.com", "2026-10-11T22:30:00+00:00")] = 1 := by
  decide

/-- Witness for claim C2 (amended) at a concrete one-record history. -/
theorem claim_C2_witness :
    count_today defaultConfig ⟨⟨2026, 10, 12⟩, 10, 0, 0, 0⟩
      ([("a@x.com", (⟨⟨2026, 10, 12⟩, 9, 30, 0, 0⟩ : DateTime))].map
        (fun r => (r.1, utc_now_iso r.2))) =
      [("a@x.com", (⟨⟨2026, 10, 12⟩, 9, 30, 0, 0⟩ : DateTime))].countP
        (fun r => r.2.date == localToday defaultConfig ⟨⟨2026, 10, 12⟩, 10, 0, 0, 0⟩) :=
  claim_C2_amended defaultConfig ⟨⟨2026, 10, 12⟩, 10, 0, 0, 0⟩ _
    (by decide) (by decide)

/-- Claim C3 (counterexample): at the hourly cap, with one externally
appended today-record in the store, the branch re-derives `hour_total`
(now 1) but leaves `today_total` at its in-memory 0 and the per-domain
counters empty, although re-deriving them from the store would give 1 and
`x.com ↦ 1`: the claim that all three are re-derived is false. -/
theorem claim_C3_counterexample :
    loopStep defaultConfig [] c3State c3Oracle =
      ([Event.waited ⟨⟨2026, 10, 12⟩, 11, 0, 0, 0⟩], .next { c3State with hourTotal := 1 }) ∧
    count_today defaultConfig c3Oracle.nowUtcRederive (parse_sent_log c3Oracle.logLines) = 1 ∧
    ({ c3State with hourTotal := 1 } : LoopState).todayTotal = 0 ∧
    used_domains_start defaultConfig c3Oracle.nowUtcRederive (parse_sent_log c3Oracle.logLines) =
      [("x.com", 1)] ∧
    ({ c3State with hourTotal := 1 } : LoopState).usedDomainsToday = [] := by
  decide

/-- Witness for claim C3 (amended) at the concrete cap state and oracle. -/
theorem claim_C3_witness :
    loopStep defaultConfig [] c3State c3Oracle =
      ([Event.waited (top_of_next_hour c3Oracle.nowCap)],
       .next { c3State with
         hourTotal := count_this_hour defaultConfig c3Oracle.nowUtcRederive
           (parse_sent_log c3Oracle.logLines) }) :=
  claim_C3_amended defaultConfig [] c3State c3Oracle (by decide) rfl rfl

theorem find?_ext {α : Type} (p q : α → Bool) (l : List α) (h : ∀ a, p a = q a) :
    l.find? p = l.find? q := by
  induction l with
  | nil => rfl
  | cons a as ih =>
    cases hq : q a with
    | true =>
      rw [List.find?_cons_of_pos _ (by rw [h a, hq]), List.find?_cons_of_pos _ hq]
    | false =>
      rw [List.find?_cons_of_neg _ (by simp [h a, hq]),
        List.find?_cons_of_neg _ (by simp [hq]), ih]

/-- Claim C4 (amended): when `lastDomainUsed` is set to a NONEMPTY domain,
the selector returns (case-folded) the first eligible entry whose domain
differs from it when one exists, and otherwise the first eligible entry,
found only after the full scan.  (For an empty `lastDomainUsed` string the
Python truthiness test disables the rotation and the claim as stated fails;
see the counterexample.) -/
theorem claim_C4_amended (cfg : Config) (emails already failed : List String)
    (used : List (String × Nat)) (ld : String) (hld : ld ≠ "") :
    (∀ a, emails.find? (fun x => selAny cfg already failed used x &&
        decide (domain_of (pyLower x) ≠ ld)) = some a →
      first_unsent_rotating cfg emails already used (some ld) failed = some (pyLower a)) ∧
    (emails.find? (fun x => selAny cfg already failed used x &&
        decide (domain_of (pyLower x) ≠ ld)) = none →
      first_unsent_rotating cfg emails already used (some ld) failed =
        (emails.find? (selAny cfg already failed used)).map pyLower) := by
  have hext : ∀ x, selDiff cfg already failed used (some ld) x =
      (selAny cfg already failed used x && decide (domain_of (pyLower x) ≠ ld)) := by
    intro x
    by_cases hP : domain_of (pyLower x) ≠ ld <;>
      simp [selDiff, selAny, DiffOk, hld, hP]
  constructor
  · intro a ha
    rw [first_unsent_rotating_eq, find?_ext _ _ emails hext, ha]
  · intro ha
    rw [first_unsent_rotating_eq, find?_ext _ _ emails hext, ha]

/-- Claim C4 (counterexample): with `lastDomainUsed = ""` (the domain of an
address that ends in `@`, which `load_emails` accepts), exclusions empty and
counters under cap, the first eligible candidate with a different domain is
`b@b.com`, but the code returns `x@` because the Python truthiness test
`last_domain and dom != last_domain` is false for the empty string. -/
theorem claim_C4_counterexample :
    first_unsent_rotating defaultConfig ["x@", "b@b.com"] [] [] (some "") [] = some "x@" ∧
    (["x@", "b@b.com"].find? (fun x => selAny defaultConfig [] [] [] x &&
        decide (domain_of (pyLower x) ≠ ""))) = some "b@b.com" ∧
    some "x@" ≠ some (pyLower "b@b.com") := by
  decide

/-- Witness for claim C4 (amended): the spec's `[A, A, B]` rotation example,
`lastDomainUsed = a.com`, returns the `b.com` address. -/
theorem claim_C4_witness :
    first_unsent_rotating defaultConfig ["u@a.com", "v@a.com", "w@b.com"] [] []
      (some "a.com") [] = some (pyLower "w@b.com") :=
  (claim_C4_amended defaultConfig ["u@a.com", "v@a.com", "w@b.com"] [] [] []
    "a.com" (by decide)).1 "w@b.com" (by decide)

/-- Claim C5: with case-folded exclusion sets (as the run loop maintains
them), the selector never returns an address case-insensitively in
`alreadySent` or `failedThisRun`, never returns one whose domain reached the
per-day domain cap, and returns `none` exactly when no entry is eligible. -/
theorem claim_C5 (cfg : Config) (emails already failed : List String)
    (used : List (String × Nat)) (last : Option String)
    (hA : ∀ x ∈ already, pyLower x = x) (hF : ∀ x ∈ failed, pyLower x = x) :
    (first_unsent_rotating cfg emails already used last failed = none ↔
      ∀ a ∈ emails, ¬ Elig cfg already failed used a) ∧
    (∀ r, first_unsent_rotating cfg emails already used last failed = some r →
      (∀ x, pyLower x = pyLower r → x ∉ already ∧ x ∉ failed) ∧
      dictGet used (domain_of r) < cfg.maxPerDayPerDomain) := by
  refine ⟨first_unsent_rotating_none_iff cfg emails already failed used last, ?_⟩
  intro r h
  have hp := first_unsent_rotating_some_props cfg emails already failed used last r h
  refine ⟨?_, hp.2.2.1⟩
  intro x hx
  have hrr : pyLower r = r := hp.2.2.2
  constructor
  · intro hmem
    have hxx : pyLower x = x := hA x hmem
    have hxr : x = r := by rw [← hxx, hx, hrr]
    exact hp.1 (hxr ▸ hmem)
  · intro hmem
    have hxx : pyLower x = x := hF x hmem
    have hxr : x = r := by rw [← hxx, hx, hrr]
    exact hp.2.1 (hxr ▸ hmem)

/-- Witness for claim C5: under exclusions `{a@x.com}` sent / `{b@y.com}`
failed the scan of `[a@x.com, b@y.com]` is exhausted, and on `[c@z.com]`
with empty exclusions the returned address satisfies the guarantees. -/
theorem claim_C5_witness :
    (first_unsent_rotating defaultConfig ["a@x.com", "b@y.com"] ["a@x.com"] [] none
        ["b@y.com"] = none ↔
      ∀ a ∈ ["a@x.com", "b@y.com"],
        ¬ Elig defaultConfig ["a@x.com"] ["b@y.com"] [] a) ∧
    ((∀ x, pyLower x = pyLower "c@z.com" → x ∉ ["a@x.com"] ∧ x ∉ ["b@y.com"]) ∧
      dictGet [] (domain_of "c@z.com") < defaultConfig.maxPerDayPerDomain) :=
  ⟨(claim_C5 defaultConfig ["a@x.com", "b@y.com"] ["a@x.com"] ["b@y.com"] [] none
      (by decide) (by decide)).1,
   (claim_C5 defaultConfig ["c@z.com"] ["a@x.com"] ["b@y.com"] [] none
      (by decide) (by decide)).2 "c@z.com" (by decide)⟩

/-- Claim C6 (amended): for quiet hours in 0-23 with
`quietEndHour < quietStartHour` (the midnight-spanning configuration the
policy is written for, and the source default 20 → 7), the next active
boundary is strictly after `t`, has hour `quietEndHour` with minute and
second zero, and is not itself quiet.  (Strictly-after and the hour shape
hold for every configuration; the not-quiet conjunct fails whenever
`quietEndHour ≥ quietStartHour`, see the counterexample.) -/
theorem claim_C6_amended (cfg : Config) (now : DateTime)
    (_h1 : cfg.quietStartHour ≤ 23) (_h2 : cfg.quietEndHour ≤ 23)
    (hq : cfg.quietEndHour < cfg.quietStartHour) :
    DateTime.lt now (next_start_of_day_at now cfg.quietEndHour 0) ∧
    (next_start_of_day_at now cfg.quietEndHour 0).hour = cfg.quietEndHour ∧
    (next_start_of_day_at now cfg.quietEndHour 0).minute = 0 ∧
    (next_start_of_day_at now cfg.quietEndHour 0).second = 0 ∧
    in_quiet_hours cfg (next_start_of_day_at now cfg.quietEndHour 0) = false :=
  ⟨next_start_strictly_after now _ 0, (next_start_hour now _ 0).1,
   (next_start_hour now _ 0).2.1, (next_start_hour now _ 0).2.2,
   next_start_not_quiet cfg now hq⟩

/-- Claim C6 (counterexample): with quiet hours 7 → 20 (both in 0-23) the
computed boundary at hour 20 satisfies `20 ≥ quietStartHour = 7`, so it IS
in the quiet window, contradicting the claim's third conjunct. -/
theorem claim_C6_counterexample :
    ({ defaultConfig with quietStartHour := 7, quietEndHour := 20 } : Config).quietStartHour ≤ 23 ∧
    ({ defaultConfig with quietStartHour := 7, quietEndHour := 20 } : Config).quietEndHour ≤ 23 ∧
    in_quiet_hours { defaultConfig with quietStartHour := 7, quietEndHour := 20 }
      (next_start_of_day_at ⟨⟨2026, 10, 12⟩, 10, 0, 0, 0⟩ 20 0) = true := by
  decide

/-- Witness for claim C6 (amended) at the default 20 → 7 configuration. -/
theorem claim_C6_witness :
    DateTime.lt ⟨⟨2026, 10, 12⟩, 10, 0, 0, 0⟩
      (next_start_of_day_at ⟨⟨2026, 10, 12⟩, 10, 0, 0, 0⟩ defaultConfig.quietEndHour 0) ∧
    (next_start_of_day_at ⟨⟨2026, 10, 12⟩, 10, 0, 0, 0⟩ defaultConfig.quietEndHour 0).hour =
      defaultConfig.quietEndHour ∧
    (next_start_of_day_at ⟨⟨2026, 10, 12⟩, 10, 0, 0, 0⟩ defaultConfig.quietEndHour 0).minute = 0 ∧
    (next_start_of_day_at ⟨⟨2026, 10, 12⟩, 10, 0, 0, 0⟩ defaultConfig.quietEndHour 0).second = 0 ∧
    in_quiet_hours defaultConfig
      (next_start_of_day_at ⟨⟨2026, 10, 12⟩, 10, 0, 0, 0⟩ defaultConfig.quietEndHour 0) = false :=
  claim_C6_amended defaultConfig ⟨⟨2026, 10, 12⟩, 10, 0, 0, 0⟩ (by decide) (by decide) (by decide)

/-- Witness for claim C7: at local hour 10 (business band) with an
off-scale draw of 1000 and jitter 5, the delay is within [22, 50]. -/
theorem claim_C7_witness :
    22 ≤ biased_delay_minutes ⟨⟨2026, 10, 12⟩, 10, 0, 0, 0⟩ 1000 5 ∧
    biased_delay_minutes ⟨⟨2026, 10, 12⟩, 10, 0, 0, 0⟩ 1000 5 ≤ 50 :=
  (claim_C7 ⟨⟨2026, 10, 12⟩, 10, 0, 0, 0⟩ 1000 5 (by decide)).1 (by decide)

/-- Claim C8 (amended): the counter derivers are total (bounded by the row
count, never raising); a malformed record contributes zero to `hour_total`
unconditionally, and zero to `today_total` and every per-domain count
exactly when its string does not begin with today's ISO date — the
today-counters are string-prefix tests, so a malformed string that happens
to start with today's date still counts (see the counterexample). -/
theorem claim_C8_amended (cfg : Config) (nowUtc : DateTime) (em ts : String)
    (rows : List (String × String)) (hbad : parseTs ts = none) :
    count_this_hour cfg nowUtc ((em, ts) :: rows) = count_this_hour cfg nowUtc rows ∧
    (pyStartswith ts (isoDateStr (localToday cfg nowUtc)) = false →
      count_today cfg nowUtc ((em, ts) :: rows) = count_today cfg nowUtc rows ∧
      ∀ dom, count_today_domain cfg nowUtc ((em, ts) :: rows) dom =
        count_today_domain cfg nowUtc rows dom) ∧
    count_this_hour cfg nowUtc ((em, ts) :: rows) ≤ rows.length + 1 ∧
    count_today cfg nowUtc ((em, ts) :: rows) ≤ rows.length + 1 := by
  have hwh : within_hour cfg nowUtc ts = false := by
    unfold within_hour
    rw [hbad]
  refine ⟨?_, ?_, ?_, ?_⟩
  · unfold count_this_hour
    simp [List.countP_cons, hwh]
  · intro hpre
    constructor
    · unfold count_today
      simp [List.countP_cons, hpre]
    · intro dom
      unfold count_today_domain
      simp [List.countP_cons, hpre]
  · calc count_this_hour cfg nowUtc ((em, ts) :: rows) ≤ ((em, ts) :: rows).length :=
          List.countP_le_length _
      _ = rows.length + 1 := by simp
  · calc count_today cfg nowUtc ((em, ts) :: rows) ≤ ((em, ts) :: rows).length :=
          List.countP_le_length _
      _ = rows.length + 1 := by simp

/-- Claim C8 (counterexample): `2026-10-12T99:99` is not parseable as an
instant (hour 99), yet at local date 2026-10-12 it contributes 1 to
`today_total` and to the `x.com` per-domain count, while contributing 0 to
`hour_total` — so "each malformed record contributes zero to every counter"
is false. -/
theorem claim_C8_counterexample :
    parseTs "2026-10-12T99:99" = none ∧
    count_today defaultConfig ⟨⟨2026, 10, 12⟩, 10, 0, 0, 0⟩
      [("a@x.com", "2026-10-12T99:99")] = 1 ∧
    count_today_domain defaultConfig ⟨⟨2026, 10, 12⟩, 10, 0, 0, 0⟩
      [("a@x.com", "2026-10-12T99:99")] "x.com" = 1 ∧
    count_this_hour defaultConfig ⟨⟨2026, 10, 12⟩, 10, 0, 0, 0⟩
      [("a@x.com", "2026-10-12T99:99")] = 0 := by
  decide

/-- Witness for claim C8 (amended) on the malformed record `garbage`. -/
theorem claim_C8_witness :
    count_this_hour defaultConfig ⟨⟨2026, 10, 12⟩, 10, 0, 0, 0⟩
        [("a@x.com", "garbage")] =
      count_this_hour defaultConfig ⟨⟨2026, 10, 12⟩, 10, 0, 0, 0⟩ [] ∧
    count_today defaultConfig ⟨⟨2026, 10, 12⟩, 10, 0, 0, 0⟩ [("a@x.com", "garbage")] =
      count_today defaultConfig ⟨⟨2026, 10, 12⟩, 10, 0, 0, 0⟩ [] :=
  ⟨(claim_C8_amended defaultConfig ⟨⟨2026, 10, 12⟩, 10, 0, 0, 0⟩ "a@x.com" "garbage" []
      (by decide)).1,
   ((claim_C8_amended defaultConfig ⟨⟨2026, 10, 12⟩, 10, 0, 0, 0⟩ "a@x.com" "garbage" []
      (by decide)).2.1 (by decide)).1⟩

/-- Claim C9: (a) whenever the startup-derived `today_total` already meets
the daily cap, the run terminates at once with the cap reason and an empty
event trace — zero send attempts; (b) whenever a successful send raises
`today_total` to the cap, the iteration emits exactly the attempt and the
log append and stops with the cap reason — no further wait, delay sampling
or selection. -/
theorem claim_C9 :
    (∀ (cfg : Config) (so : StartOracle) (logLines emails : List String)
        (iters : List IterOracle),
      cfg.maxPerDayTotal ≤ count_today cfg so.nowUtc (parse_sent_log logLines) →
      mainRun cfg so logLines emails iters = ([], .stopped .dailyLimit)) ∧
    (∀ (cfg : Config) (emails : List String) (s : LoopState) (o : IterOracle)
        (addr : String),
      s.hourTotal < cfg.maxPerHourTotal →
      first_unsent_rotating cfg emails s.already s.usedDomainsToday s.lastDomain
        s.failedOnce = some addr →
      addr ≠ "" → o.hotkeyOk = true → o.connOk = true → o.smtpOk = true →
      cfg.maxPerDayTotal ≤ s.todayTotal + 1 →
      loopStep cfg emails s o =
        ([Event.sendAttempt addr, Event.logged addr], .stop .dailyLimit)) := by
  constructor
  · intro cfg so logLines emails iters h
    simp [mainRun, h]
  · intro cfg emails s o addr h1 h2 h3 h4 h5 h6 h7
    exact loopStep_success_cap cfg emails s o addr h1 h2 h3 h4 h5 h6 h7

/-- Witness for claim C9: (a) a zero daily cap terminates a run on an empty
log at once; (b) with daily cap 1, a fresh state and a succeeding SMTP
oracle, the iteration stops right after the logged send. -/
theorem claim_C9_witness :
    mainRun { defaultConfig with maxPerDayTotal := 0 }
      { nowUtc := ⟨⟨2026, 10, 12⟩, 10, 0, 0, 0⟩,
        nowLocalWindow := ⟨⟨2026, 10, 12⟩, 10, 0, 0, 0⟩,
        windowWaitOk := true, connOk := true } [] [] [] = ([], .stopped .dailyLimit) ∧
    loopStep { defaultConfig with maxPerDayTotal := 1 } ["a@x.com"] freshState
      { c1Oracle with smtpOk := true } =
      ([Event.sendAttempt "a@x.com", Event.logged "a@x.com"], .stop .dailyLimit) :=
  ⟨claim_C9.1 { defaultConfig with maxPerDayTotal := 0 } _ [] [] [] (by decide),
   claim_C9.2 { defaultConfig with maxPerDayTotal := 1 } ["a@x.com"] freshState
     { c1Oracle with smtpOk := true } "a@x.com" (by decide) (by decide) (by decide)
     rfl rfl rfl (by decide)⟩

/-- Claim C10: within one run every address is attempted at most once.
(1) The selector never returns a member of `alreadySent` or `failedThisRun`;
(2) both sets only grow across an iteration; (3) after an iteration whose
attempt continued the loop, the attempted address (case-folded) is in the
successor's `alreadySent` or `failedThisRun`; (4) consequently the send
targets of any full run are pairwise distinct. -/
theorem claim_C10 :
    (∀ (cfg : Config) (emails already failed : List String)
        (used : List (String × Nat)) (last : Option String) (r : String),
      first_unsent_rotating cfg emails already used last failed = some r →
      r ∉ already ∧ r ∉ failed) ∧
    (∀ (cfg : Config) (emails : List String) (s : LoopState) (o : IterOracle)
        (s' : LoopState), (loopStep cfg emails s o).2 = .next s' →
      s.already ⊆ s'.already ∧ s.failedOnce ⊆ s'.failedOnce) ∧
    (∀ (cfg : Config) (emails : List String) (s : LoopState) (o : IterOracle)
        (s' : LoopState) (a : String), (loopStep cfg emails s o).2 = .next s' →
      Event.sendAttempt a ∈ (loopStep cfg emails s o).1 →
      pyLower a ∈ s'.already ∨ pyLower a ∈ s'.failedOnce) ∧
    (∀ (cfg : Config) (so : StartOracle) (logLines emails : List String)
        (iters : List IterOracle),
      (send_targets (mainRun cfg so logLines emails iters).1).Nodup) := by
  refine ⟨?_, ?_, ?_, ?_⟩
  · intro cfg emails already failed used last r h
    have hp := first_unsent_rotating_some_props cfg emails already failed used last r h
    exact ⟨hp.1, hp.2.1⟩
  · intro cfg emails s o s' h
    rcases loopStep_attempts cfg emails s o with ⟨-, hst⟩ | ⟨addr, -, -, hst⟩
    · obtain ⟨h1, h2⟩ := hst s' h
      rw [h1, h2]
      exact ⟨List.Subset.refl _, List.Subset.refl _⟩
    · rcases hst s' h with ⟨h1, h2⟩ | ⟨h1, h2⟩ <;> rw [h1, h2]
      · exact ⟨List.subset_cons_self _ _, List.Subset.refl _⟩
      · exact ⟨List.Subset.refl _, List.subset_cons_self _ _⟩
  · intro cfg emails s o s' a hnext hmem
    have hmem' : a ∈ send_targets (loopStep cfg emails s o).1 := by
      unfold send_targets
      exact List.mem_filterMap.mpr ⟨Event.sendAttempt a, hmem, rfl⟩
    rcases loopStep_attempts cfg emails s o with ⟨he, -⟩ | ⟨addr, hsel, he, hst⟩
    · rw [he] at hmem'
      simp at hmem'
    · rw [he] at hmem'
      simp only [List.mem_singleton] at hmem'
      subst hmem'
      rcases hst s' hnext with ⟨h1, -⟩ | ⟨-, h2⟩
      · exact Or.inl (by rw [h1]; exact List.mem_cons_self _ _)
      · exact Or.inr (by rw [h2]; exact List.mem_cons_self _ _)
  · intro cfg so logLines emails iters
    exact mainRun_attempts_nodup cfg so logLines emails iters

/-- Witness for claim C10 at concrete runs: a selector call, a failing
iteration from the fresh state, and a two-iteration run whose send targets
are distinct. -/
theorem claim_C10_witness :
    ("a@x.com" ∉ (["b@y.com"] : List String) ∧ "a@x.com" ∉ ([] : List String)) ∧
    (freshState.already ⊆ [] ∧
      freshState.failedOnce ⊆ ["a@x.com"]) ∧
    (pyLower "a@x.com" ∈ ([] : List String) ∨ pyLower "a@x.com" ∈ ["a@x.com"]) ∧
    (send_targets (mainRun defaultConfig
      { nowUtc := ⟨⟨2026, 10, 12⟩, 10, 0, 0, 0⟩,
        nowLocalWindow := ⟨⟨2026, 10, 12⟩, 10, 0, 0, 0⟩,
        windowWaitOk := true, connOk := true } []
      ["a@x.com", "b@y.com"] [c1Oracle, c1Oracle]).1).Nodup :=
  ⟨claim_C10.1 defaultConfig ["a@x.com"] ["b@y.com"] [] [] none "a@x.com" (by decide),
   by
     have h := claim_C10.2.1 defaultConfig ["a@x.com"] freshState c1Oracle
       { freshState with failedOnce := ["a@x.com"], lastDomain := some "x.com" } (by decide)
     exact h,
   claim_C10.2.2.1 defaultConfig ["a@x.com"] freshState c1Oracle
     { freshState with failedOnce := ["a@x.com"], lastDomain := some "x.com" } "a@x.com"
     (by decide) (by decide),
   claim_C10.2.2.2 defaultConfig _ [] ["a@x.com", "b@y.com"] [c1Oracle, c1Oracle]⟩
